import Mathlib

/-!
Shallow embedding of the session/transaction manager of the
isolation-levels demo (backend `SessionManagerService` and the
`TerminalGateway` request handlers).

Conventions of the embedding:
* A database row (`Record<string, unknown>` delivered by `SELECT *`) is a
  list of column-name/serialized-value pairs in object key order; JS
  `JSON.stringify` equality of two such rows coincides with structural
  equality of the lists, and `String(row.id)` is the value of the `"id"`
  column (`"undefined"` when the column is missing, as in JS).
* JS `Map` is an insertion-ordered association list with unique keys
  (`alSet` overwrites in place, `alGet` looks up, `alDelete` removes);
  JS `Set` of strings is an insertion-ordered duplicate-free list
  (`addToSet` appends when absent).
* The PostgreSQL connection (`pg.Client`) is modelled by `Conn`: a reply
  oracle `engine : Nat -> EngineReply` consumed one reply per issued
  query, a call counter `k`, and the `trace` of SQL text sent so far.
  A query that the engine answers with `.err e` corresponds to
  `client.query` rejecting with an error that `parseError` renders as
  `e` (message with optional code and detail).
* A TypeScript method that can reject (throw past every `catch`) returns
  `ExecOutcome`: `.ret r` is a resolved promise, `.thrown e` a rejected
  one.  Wall-clock readings (`performance.now`, `Date.now`) are
  abstracted: durations are 0 and `createdAt` is a parameter.
-/

/-- PostgreSQL transaction isolation levels (shared `IsolationLevel`). -/
inductive IsolationLevel where
  | readUncommitted
  | readCommitted
  | repeatableRead
  | serializable
deriving DecidableEq

/-- The SQL spelling of an isolation level, as interpolated into
`BEGIN ISOLATION LEVEL ${state.isolationLevel}`. -/
def IsolationLevel.toSql : IsolationLevel → String
  | .readUncommitted => "READ UNCOMMITTED"
  | .readCommitted => "READ COMMITTED"
  | .repeatableRead => "REPEATABLE READ"
  | .serializable => "SERIALIZABLE"

/-- `QueryError { message, code?, detail? }`. -/
structure QueryError where
  message : String
  code : Option String := none
  detail : Option String := none
deriving DecidableEq

/-- Result column metadata as returned to clients (`FieldInfo`). -/
structure FieldInfo where
  name : String
  dataType : String
deriving DecidableEq

/-- Column metadata as delivered by the pg driver (`f.name`,
`f.dataTypeID`). -/
structure RawField where
  name : String
  dataTypeID : Nat
deriving DecidableEq

/-- A database row: column name / serialized value pairs in object key
order.  Structural equality models `JSON.stringify` equality. -/
structure Row where
  data : List (String × String)
deriving DecidableEq

/-- `String(row.id)`: the `"id"` column of the row, `"undefined"` when
absent (JS stringification of `undefined`). -/
def Row.rowId (r : Row) : String :=
  match r.data.lookup "id" with
  | some v => v
  | none => "undefined"

/-- `SessionState` (the session descriptor sent to clients). -/
structure SessionState where
  sessionId : String
  inTransaction : Bool
  isolationLevel : IsolationLevel
  createdAt : Nat
deriving DecidableEq

/-- The per-table accumulated `modifiedRows` sets of a session
(`{ accounts: new Set(), products: new Set() }`). -/
structure ModifiedRows where
  accounts : List String
  products : List String
deriving DecidableEq

/-- A freshly cleared `modifiedRows` record. -/
def emptyModifiedRows : ModifiedRows := { accounts := [], products := [] }

/-- One reply of the database engine to one `client.query` call. -/
inductive EngineReply where
  | ok (rows : List Row) (rowCount : Option Nat) (fields : List RawField)
  | err (e : QueryError)

/-- A session's dedicated connection: reply oracle, call counter and the
trace of SQL text sent on this connection, in order. -/
structure Conn where
  engine : Nat → EngineReply
  k : Nat
  trace : List String

/-- `client.query(sql)`: consumes the next engine reply and records the
SQL text on the connection's trace. -/
def connQuery (c : Conn) (sql : String) : EngineReply × Conn :=
  (c.engine c.k, { c with k := c.k + 1, trace := c.trace ++ [sql] })

/-- `ActiveSession` of `session-manager.types`: the session's exclusive
connection, its descriptor, the owning terminal and the accumulated
modified-row sets. -/
structure ActiveSession where
  conn : Conn
  state : SessionState
  terminalId : Nat
  modifiedRows : ModifiedRows

/-- The session registry `Map<string, ActiveSession>`. -/
abbrev Registry := List (String × ActiveSession)

/-- JS `Map.get`: first (unique) binding of the key. -/
def alGet {α : Type} (m : List (String × α)) (key : String) : Option α :=
  match m with
  | [] => none
  | (k', v) :: rest => if k' = key then some v else alGet rest key

/-- JS `Map.set`: overwrite the binding in place, or append a new one. -/
def alSet {α : Type} (m : List (String × α)) (key : String) (v : α) :
    List (String × α) :=
  match m with
  | [] => [(key, v)]
  | (k', v') :: rest =>
    if k' = key then (k', v) :: rest else (k', v') :: alSet rest key v

/-- JS `Map.delete`: remove the binding of the key. -/
def alDelete {α : Type} (m : List (String × α)) (key : String) :
    List (String × α) :=
  m.filter (fun p => p.1 ≠ key)

/-- JS `Set.add` on an insertion-ordered string set. -/
def addToSet (s : List String) (x : String) : List String :=
  if x ∈ s then s else s ++ [x]

/-- `new Map(rows.map((row) => [String(row.id), row]))`: later duplicate
keys overwrite earlier ones, insertion order of first occurrence kept. -/
def buildMap (rows : List Row) : List (String × Row) :=
  rows.foldl (fun m r => alSet m r.rowId r) []

/-- The whitespace class trimmed by JS `String.prototype.trim` (ASCII
portion: space, tab, line feed, carriage return, vertical tab, form
feed). -/
def jsIsSpace (c : Char) : Bool :=
  [' ', '\t', '\n', '\r', '\x0b', '\x0c'].contains c

/-- `sql.trim()`: drop whitespace from both ends. -/
def jsTrimList (l : List Char) : List Char :=
  ((l.dropWhile jsIsSpace).reverse.dropWhile jsIsSpace).reverse

/-- Lower-case to upper-case table of `String.prototype.toUpperCase`
(ASCII letters; the SQL keywords recognized by the classifier are
ASCII). -/
def upperPairs : List (Char × Char) :=
  [('a', 'A'), ('b', 'B'), ('c', 'C'), ('d', 'D'), ('e', 'E'), ('f', 'F'),
   ('g', 'G'), ('h', 'H'), ('i', 'I'), ('j', 'J'), ('k', 'K'), ('l', 'L'),
   ('m', 'M'), ('n', 'N'), ('o', 'O'), ('p', 'P'), ('q', 'Q'), ('r', 'R'),
   ('s', 'S'), ('t', 'T'), ('u', 'U'), ('v', 'V'), ('w', 'W'), ('x', 'X'),
   ('y', 'Y'), ('z', 'Z')]

/-- First-match lookup in a character table. -/
def charLookup : List (Char × Char) → Char → Option Char
  | [], _ => none
  | (a, b) :: rest, c => if a = c then some b else charLookup rest c

/-- One character of `.toUpperCase()`: letters map through the table,
everything else is unchanged. -/
def jsUpperChar (c : Char) : Char :=
  (charLookup upperPairs c).getD c

/-- `.toUpperCase()`. -/
def jsUpperList (l : List Char) : List Char :=
  l.map jsUpperChar

/-- `.replace(/;$/, '')`: remove exactly one trailing semicolon. -/
def stripSemiList (l : List Char) : List Char :=
  if l.getLast? = some ';' then l.dropLast else l

/-- The normalization performed by `parseTransactionCommand`:
`sql.trim().toUpperCase().replace(/;$/, '')`. -/
def normalizeCodeList (l : List Char) : List Char :=
  stripSemiList (jsUpperList (jsTrimList l))

/-- Modelled from the spec (§4.2, for comparison with the code): trim,
strip one trailing statement terminator, then upper-case. -/
def specNormalizeList (l : List Char) : List Char :=
  jsUpperList (stripSemiList (jsTrimList l))

/-- `normalized.startsWith(prefixChars)`. -/
def startsWithList : List Char → List Char → Bool
  | _, [] => true
  | [], _ :: _ => false
  | c :: l, p :: ps => c == p && startsWithList l ps

/-- `TransactionCommand = 'BEGIN' | 'COMMIT' | 'ROLLBACK'`. -/
inductive TransactionCommand where
  | beginCmd
  | commitCmd
  | rollbackCmd
deriving DecidableEq

/-- The SQL text sent for a transaction-control command
(`client.query(command)`). -/
def TransactionCommand.toSql : TransactionCommand → String
  | .beginCmd => "BEGIN"
  | .commitCmd => "COMMIT"
  | .rollbackCmd => "ROLLBACK"

/-- `parseTransactionCommand` of `SessionManagerService` (identical in
both service variants): normalize, then match `BEGIN`/`BEGIN ...`,
`COMMIT`, `ROLLBACK`; anything else is an ordinary statement (`null`). -/
def parseTransactionCommand (sql : String) : Option TransactionCommand :=
  let normalized := normalizeCodeList sql.toList
  if normalized = "BEGIN".toList ∨ startsWithList normalized "BEGIN ".toList = true then
    some .beginCmd
  else if normalized = "COMMIT".toList then some .commitCmd
  else if normalized = "ROLLBACK".toList then some .rollbackCmd
  else none

/-- `trackModifiedRows` for one tracked table: key `before` and `after`
by `String(row.id)`; record deletions and stringify-inequal survivors
from the `before` map, then insertions from the `after` map. -/
def trackTable (modified : List String) (before after : List Row) :
    List String :=
  let beforeMap := buildMap before
  let afterMap := buildMap after
  let afterDeletesMods := beforeMap.foldl
    (fun acc p =>
      match alGet afterMap p.1 with
      | none => addToSet acc p.1
      | some afterRow => if p.2 = afterRow then acc else addToSet acc p.1)
    modified
  afterMap.foldl
    (fun acc p =>
      match alGet beforeMap p.1 with
      | some _ => acc
      | none => addToSet acc p.1)
    afterDeletesMods

/-- `trackModifiedRows`: run the per-table differencer over
`ALLOWED_TABLES = ['accounts', 'products']`.  A snapshot pair is
(accounts rows, products rows). -/
def trackModifiedRows (m : ModifiedRows) (before after : List Row × List Row) :
    ModifiedRows :=
  { accounts := trackTable m.accounts before.1 after.1
    products := trackTable m.products before.2 after.2 }

/-- `QueryResult { rows, rowCount, fields, duration }`. -/
structure QueryResult where
  rows : List Row
  rowCount : Nat
  fields : List FieldInfo
  duration : Nat
deriving DecidableEq

/-- `UncommittedSnapshot`: the session's own view of both tracked tables
plus its accumulated modified-row ids (`Array.from` of the sets). -/
structure UncommittedSnapshot where
  terminalId : Nat
  accounts : List Row
  products : List Row
  modifiedAccounts : List String
  modifiedProducts : List String
deriving DecidableEq

/-- `QueryExecutionResult { result?, error?, uncommitted? }`. -/
structure QueryExecutionResult where
  result : Option QueryResult
  error : Option QueryError
  uncommitted : Option UncommittedSnapshot
deriving DecidableEq

/-- How a TypeScript promise settles: resolved with a value, or rejected
with an uncaught error. -/
inductive ExecOutcome where
  | ret (r : QueryExecutionResult)
  | thrown (e : QueryError)
deriving DecidableEq

/-- `true` iff the promise resolved (did not reject). -/
def ExecOutcome.isRet : ExecOutcome → Bool
  | .ret _ => true
  | .thrown _ => false

/-- `OperationResult { success, error? }`. -/
structure OperationResult where
  success : Bool
  error : Option QueryError
deriving DecidableEq

/-- `PG_TYPE_MAP`. -/
def pgTypeMap : List (Nat × String) :=
  [(16, "boolean"), (23, "integer"), (25, "text"), (700, "float4"),
   (701, "float8"), (1043, "varchar"), (1082, "date"), (1114, "timestamp"),
   (1184, "timestamptz"), (1700, "numeric")]

/-- Map a pg result into the client-facing `QueryResult`
(`PG_TYPE_MAP[f.dataTypeID] ?? 'unknown'`, `rowCount ?? 0`; duration
abstracted to 0). -/
def buildQueryResult (rows : List Row) (rowCount : Option Nat)
    (rawFields : List RawField) : QueryResult :=
  { rows := rows
    rowCount := rowCount.getD 0
    fields := rawFields.map (fun f =>
      { name := f.name, dataType := (pgTypeMap.lookup f.dataTypeID).getD "unknown" })
    duration := 0 }

/-- `emptyResult`. -/
def emptyResult : QueryResult :=
  { rows := [], rowCount := 0, fields := [], duration := 0 }

/-- The full-table read issued for the accounts table. -/
def selectAccountsSql : String := "SELECT * FROM accounts ORDER BY id"

/-- The full-table read issued for the products table. -/
def selectProductsSql : String := "SELECT * FROM products ORDER BY id"

/-- `getRawSnapshot`: `Promise.all` of the two full-table reads on the
session's connection; both queries are dispatched, the first rejection
wins. -/
def getRawSnapshotFrom (c : Conn) :
    Except QueryError (List Row × List Row) × Conn :=
  let (r1, c1) := connQuery c selectAccountsSql
  let (r2, c2) := connQuery c1 selectProductsSql
  match r1, r2 with
  | .err e, _ => (.error e, c2)
  | .ok _ _ _, .err e => (.error e, c2)
  | .ok rows1 _ _, .ok rows2 _ _ => (.ok (rows1, rows2), c2)

/-- `getSessionSnapshot`: both full-table reads through the session's
own connection, paired with the terminal identity and `Array.from` of
the accumulated modified-row sets. -/
def getSessionSnapshot (s : ActiveSession) :
    Except QueryError UncommittedSnapshot × Conn :=
  let (r1, c1) := connQuery s.conn selectAccountsSql
  let (r2, c2) := connQuery c1 selectProductsSql
  match r1, r2 with
  | .err e, _ => (.error e, c2)
  | .ok _ _ _, .err e => (.error e, c2)
  | .ok rows1 _ _, .ok rows2 _ _ =>
    (.ok { terminalId := s.terminalId
           accounts := rows1
           products := rows2
           modifiedAccounts := s.modifiedRows.accounts
           modifiedProducts := s.modifiedRows.products }, c2)

/-- The `catch` clause of `executeRegularQuery`: while in a transaction,
`silentRollback` (reply ignored), leave the transaction and clear the
modified-row sets; then return the parsed engine error.  `s.conn` is the
connection as of the failure. -/
def catchClause (s : ActiveSession) (e : QueryError) :
    QueryExecutionResult × ActiveSession :=
  if s.state.inTransaction then
    let (_, c1) := connQuery s.conn "ROLLBACK"
    ({ result := none, error := some e, uncommitted := none },
     { s with conn := c1
              state := { s.state with inTransaction := false }
              modifiedRows := emptyModifiedRows })
  else
    ({ result := none, error := some e, uncommitted := none }, s)

/-- `executeRegularQuery`: inside a transaction, snapshot before, run
the statement, snapshot after and track modified rows, then build the
uncommitted view; any failure lands in the catch clause.  Outside a
transaction, just run the statement. -/
def executeRegularQuery (s : ActiveSession) (sql : String) :
    QueryExecutionResult × ActiveSession :=
  if s.state.inTransaction then
    match getRawSnapshotFrom s.conn with
    | (.error e, c1) => catchClause { s with conn := c1 } e
    | (.ok before, c1) =>
      match connQuery c1 sql with
      | (.err e, c2) => catchClause { s with conn := c2 } e
      | (.ok rows rowCount rawFields, c2) =>
        match getRawSnapshotFrom c2 with
        | (.error e, c3) => catchClause { s with conn := c3 } e
        | (.ok after, c3) =>
          let s1 := { s with conn := c3
                             modifiedRows := trackModifiedRows s.modifiedRows before after }
          match getSessionSnapshot s1 with
          | (.error e, c4) => catchClause { s1 with conn := c4 } e
          | (.ok snap, c4) =>
            ({ result := some (buildQueryResult rows rowCount rawFields)
               error := none
               uncommitted := some snap },
             { s1 with conn := c4 })
  else
    match connQuery s.conn sql with
    | (.err e, c1) => catchClause { s with conn := c1 } e
    | (.ok rows rowCount rawFields, c1) =>
      ({ result := some (buildQueryResult rows rowCount rawFields)
         error := none
         uncommitted := none },
       { s with conn := c1 })

/-- `executeTransactionCommand`: validate the state machine, then send
the control statement.  The engine call is not wrapped in `try`, so an
engine failure rejects the promise (`.thrown`). -/
def executeTransactionCommand (s : ActiveSession) (cmd : TransactionCommand) :
    ExecOutcome × ActiveSession :=
  match cmd with
  | .beginCmd =>
    if s.state.inTransaction then
      (.ret { result := none
              error := some { message := "Transaction already in progress" }
              uncommitted := none }, s)
    else
      match connQuery s.conn ("BEGIN ISOLATION LEVEL " ++ s.state.isolationLevel.toSql) with
      | (.err e, c1) => (.thrown e, { s with conn := c1 })
      | (.ok _ _ _, c1) =>
        (.ret { result := some emptyResult, error := none, uncommitted := none },
         { s with conn := c1
                  state := { s.state with inTransaction := true }
                  modifiedRows := emptyModifiedRows })
  | _ =>
    if s.state.inTransaction then
      match connQuery s.conn cmd.toSql with
      | (.err e, c1) => (.thrown e, { s with conn := c1 })
      | (.ok _ _ _, c1) =>
        (.ret { result := some emptyResult, error := none, uncommitted := none },
         { s with conn := c1
                  state := { s.state with inTransaction := false }
                  modifiedRows := emptyModifiedRows })
    else
      (.ret { result := none
              error := some { message := "No transaction in progress" }
              uncommitted := none }, s)

/-- `executeQuery`: resolve the session, classify the SQL, dispatch to
the transaction-command or ordinary path; after a successful `BEGIN`
attach the uncommitted snapshot (that read is not wrapped in `try`
either, so its failure also rejects). -/
def executeQuery (reg : Registry) (sessionId sql : String) :
    ExecOutcome × Registry :=
  match alGet reg sessionId with
  | none =>
    (.ret { result := none, error := some { message := "Session not found" }
            uncommitted := none }, reg)
  | some s =>
    match parseTransactionCommand sql with
    | some cmd =>
      match executeTransactionCommand s cmd with
      | (.thrown e, s') => (.thrown e, alSet reg sessionId s')
      | (.ret r, s') =>
        if r.error = none ∧ cmd = .beginCmd then
          match getSessionSnapshot s' with
          | (.error e, c') => (.thrown e, alSet reg sessionId { s' with conn := c' })
          | (.ok snap, c') =>
            (.ret { r with uncommitted := some snap },
             alSet reg sessionId { s' with conn := c' })
        else
          (.ret r, alSet reg sessionId s')
    | none =>
      match executeRegularQuery s sql with
      | (r, s') => (.ret r, alSet reg sessionId s')

/-- The command argument of `endTransaction` (`'COMMIT' | 'ROLLBACK'`). -/
inductive EndCommand where
  | commitEnd
  | rollbackEnd
deriving DecidableEq

/-- The SQL text sent by `endTransaction`. -/
def EndCommand.toSql : EndCommand → String
  | .commitEnd => "COMMIT"
  | .rollbackEnd => "ROLLBACK"

/-- `endTransaction`: validate, send the control statement inside
`try`, and on success leave the transaction and clear the modified-row
sets; an engine failure is caught and returned as the error. -/
def endTransaction (reg : Registry) (sessionId : String) (cmd : EndCommand) :
    OperationResult × Registry :=
  match alGet reg sessionId with
  | none =>
    ({ success := false, error := some { message := "Session not found" } }, reg)
  | some s =>
    if s.state.inTransaction then
      match connQuery s.conn cmd.toSql with
      | (.ok _ _ _, c1) =>
        ({ success := true, error := none },
         alSet reg sessionId
           { s with conn := c1
                    state := { s.state with inTransaction := false }
                    modifiedRows := emptyModifiedRows })
      | (.err e, c1) =>
        ({ success := false, error := some e },
         alSet reg sessionId { s with conn := c1 })
    else
      ({ success := false, error := some { message := "No active transaction" } },
       reg)

/-- `commit(sessionId)`. -/
def commitSession (reg : Registry) (sessionId : String) :
    OperationResult × Registry :=
  endTransaction reg sessionId .commitEnd

/-- `rollback(sessionId)`. -/
def rollbackSession (reg : Registry) (sessionId : String) :
    OperationResult × Registry :=
  endTransaction reg sessionId .rollbackEnd

/-- `setIsolationLevel`: validate, then update the descriptor; no SQL is
sent (the level takes effect on the next `BEGIN`). -/
def setIsolationLevel (reg : Registry) (sessionId : String)
    (level : IsolationLevel) : OperationResult × Registry :=
  match alGet reg sessionId with
  | none =>
    ({ success := false, error := some { message := "Session not found" } }, reg)
  | some s =>
    if s.state.inTransaction then
      ({ success := false
         error := some { message := "Cannot change isolation level during active transaction" } },
       reg)
    else
      ({ success := true, error := none },
       alSet reg sessionId
         { s with state := { s.state with isolationLevel := level } })

/-- `createSession`: register a fresh session over an already-connected
client.  The generated id, the wall clock and the connection are
parameters of the embedding. -/
def createSession (reg : Registry) (sessionId : String) (terminalId : Nat)
    (conn : Conn) (now : Nat) (isolationLevel : IsolationLevel) :
    SessionState × Registry :=
  let state : SessionState :=
    { sessionId := sessionId, inTransaction := false
      isolationLevel := isolationLevel, createdAt := now }
  (state,
   alSet reg sessionId
     { conn := conn, state := state, terminalId := terminalId
       modifiedRows := emptyModifiedRows })

/-- `closeSession`: unknown id is a no-op; otherwise roll back an open
transaction, end the connection (teardown, not SQL) and drop the
registry entry — all failures ignored.  Returns the new registry and
the SQL sent on the session's connection during the close. -/
def closeSession (reg : Registry) (sessionId : String) :
    Registry × List String :=
  match alGet reg sessionId with
  | none => (reg, [])
  | some s =>
    (alDelete reg sessionId,
     if s.state.inTransaction then ["ROLLBACK"] else [])

/-- `getSessionState`. -/
def getSessionState (reg : Registry) (sessionId : String) :
    Option SessionState :=
  (alGet reg sessionId).map (fun s => s.state)

/-- `SessionOperationResult`: union of `{ sessionId, state }` and
`{ sessionId, error }` — the two optional fields are never both set. -/
structure SessionOperationResult where
  sessionId : String
  state : Option SessionState
  error : Option String
deriving DecidableEq

/-- `QueryResultEvent` as assembled by `handleExecuteQuery` (the
`uncommitted` field of the wire type is left `undefined` there). -/
structure QueryResultEvent where
  sessionId : String
  result : Option QueryResult
  error : Option QueryError
  state : Option SessionState
  uncommitted : Option UncommittedSnapshot
deriving DecidableEq

/-- `getSessionResult` of `TerminalGateway`. -/
def getSessionResult (reg : Registry) (sessionId : String) :
    SessionOperationResult :=
  match getSessionState reg sessionId with
  | none => { sessionId := sessionId, state := none, error := some "Session not found" }
  | some st => { sessionId := sessionId, state := some st, error := none }

/-- `handleExecuteQuery`: run the query, then attach the session's
current descriptor (`?? undefined`); the manager's `uncommitted` field
is not forwarded.  The broadcast of committed data after autocommit
touches only the utility connection and no session state. -/
def handleExecuteQuery (reg : Registry) (sessionId sql : String) :
    Except QueryError QueryResultEvent × Registry :=
  match executeQuery reg sessionId sql with
  | (.thrown e, reg') => (.error e, reg')
  | (.ret r, reg') =>
    (.ok { sessionId := sessionId, result := r.result, error := r.error
           state := getSessionState reg' sessionId, uncommitted := none },
     reg')

/-- `handleCommit`: on a manager error return `{ sessionId, error }`
only; otherwise broadcast (utility connection) and return the current
descriptor. -/
def handleCommit (reg : Registry) (sessionId : String) :
    SessionOperationResult × Registry :=
  match (commitSession reg sessionId).1.error with
  | some e =>
    ({ sessionId := sessionId, state := none, error := some e.message },
     (commitSession reg sessionId).2)
  | none =>
    (getSessionResult (commitSession reg sessionId).2 sessionId,
     (commitSession reg sessionId).2)

/-- `handleRollback`: same shape as `handleCommit`. -/
def handleRollback (reg : Registry) (sessionId : String) :
    SessionOperationResult × Registry :=
  match (rollbackSession reg sessionId).1.error with
  | some e =>
    ({ sessionId := sessionId, state := none, error := some e.message },
     (rollbackSession reg sessionId).2)
  | none =>
    (getSessionResult (rollbackSession reg sessionId).2 sessionId,
     (rollbackSession reg sessionId).2)

/-- `handleSetIsolation`: pre-check the session exists, set the level,
and return either the error (without descriptor) or the descriptor. -/
def handleSetIsolation (reg : Registry) (sessionId : String)
    (level : IsolationLevel) : SessionOperationResult × Registry :=
  match getSessionState reg sessionId with
  | none => ({ sessionId := sessionId, state := none, error := some "Session not found" }, reg)
  | some _ =>
    match (setIsolationLevel reg sessionId level).1.error with
    | some e =>
      ({ sessionId := sessionId, state := none, error := some e.message },
       (setIsolationLevel reg sessionId level).2)
    | none =>
      (getSessionResult (setIsolationLevel reg sessionId level).2 sessionId,
       (setIsolationLevel reg sessionId level).2)

/-! ### Association-list and set lemmas -/

theorem alGet_alSet_self {α : Type} (m : List (String × α)) (k : String) (v : α) :
    alGet (alSet m k v) k = some v := by
  induction m with
  | nil => simp [alGet, alSet]
  | cons p rest ih =>
    by_cases h : p.1 = k
    · simp [alSet, alGet, h]
    · simp only [alSet, alGet, if_neg h]
      exact ih

theorem alGet_alSet_ne {α : Type} (m : List (String × α)) (k k' : String) (v : α)
    (h : k' ≠ k) : alGet (alSet m k v) k' = alGet m k' := by
  have hkk : ¬(k = k') := fun hh => h hh.symm
  induction m with
  | nil => simp [alGet, alSet, hkk]
  | cons p rest ih =>
    by_cases hp : p.1 = k
    · subst hp
      simp [alSet, alGet, hkk]
    · simp only [alSet, alGet, if_neg hp]
      by_cases hp' : p.1 = k'
      · simp [alGet, hp']
      · simp [alGet, hp', ih]

theorem alSet_eq_of_get {α : Type} (m : List (String × α)) (k : String) (v : α)
    (h : alGet m k = some v) : alSet m k v = m := by
  induction m with
  | nil => simp [alGet] at h
  | cons p rest ih =>
    obtain ⟨a, b⟩ := p
    by_cases hp : a = k
    · subst hp
      simp only [alGet, if_pos rfl] at h
      cases h
      simp [alSet]
    · simp only [alGet, if_neg hp] at h
      simp [alSet, hp, ih h]

theorem alGet_alDelete_self {α : Type} (m : List (String × α)) (k : String) :
    alGet (alDelete m k) k = none := by
  induction m with
  | nil => simp [alGet, alDelete]
  | cons p rest ih =>
    by_cases hp : p.1 = k
    · simpa [alDelete, hp] using ih
    · simpa [alDelete, alGet, hp] using ih

theorem addToSet_mem (s : List String) (x y : String) :
    y ∈ addToSet s x ↔ y ∈ s ∨ x = y := by
  unfold addToSet
  by_cases h : x ∈ s
  · simp only [if_pos h]
    constructor
    · exact Or.inl
    · rintro (hy | rfl)
      · exact hy
      · exact h
  · simp only [if_neg h, List.mem_append, List.mem_singleton]
    constructor
    · rintro (hy | rfl)
      · exact Or.inl hy
      · exact Or.inr rfl
    · rintro (hy | rfl)
      · exact Or.inl hy
      · exact Or.inr rfl

theorem addToSet_sub (s : List String) (x : String) : s ⊆ addToSet s x := by
  intro y hy
  exact (addToSet_mem s x y).mpr (Or.inl hy)

/-! ### Keys of the identity maps built by the differencer -/

theorem alSet_keys {α : Type} (m : List (String × α)) (k : String) (v : α) :
    (alSet m k v).map Prod.fst =
      if k ∈ m.map Prod.fst then m.map Prod.fst else m.map Prod.fst ++ [k] := by
  induction m with
  | nil => simp [alSet]
  | cons p rest ih =>
    by_cases hp : p.1 = k
    · simp [alSet, hp]
    · simp only [alSet, if_neg hp, List.map_cons, ih]
      by_cases hm : k ∈ rest.map Prod.fst
      · simp [hm, hp, Ne.symm hp]
      · simp [hm, hp, Ne.symm hp]

theorem alSet_keys_nodup {α : Type} (m : List (String × α)) (k : String) (v : α)
    (h : (m.map Prod.fst).Nodup) : ((alSet m k v).map Prod.fst).Nodup := by
  rw [alSet_keys]
  by_cases hm : k ∈ m.map Prod.fst
  · simpa [hm] using h
  · rw [if_neg hm, List.nodup_append]
    refine ⟨h, List.nodup_singleton _, ?_⟩
    intro x hx hmem
    rcases List.mem_singleton.mp hmem with rfl
    exact hm hx

theorem buildMap_keys_nodup (rows : List Row) :
    ((buildMap rows).map Prod.fst).Nodup := by
  have general : ∀ (l : List Row) (init : List (String × Row)),
      (init.map Prod.fst).Nodup →
      ((l.foldl (fun m r => alSet m r.rowId r) init).map Prod.fst).Nodup := by
    intro l
    induction l with
    | nil => intro init h; simpa using h
    | cons r t ih =>
      intro init h
      exact ih _ (alSet_keys_nodup init r.rowId r h)
  exact general rows [] (by simp)

theorem mem_of_alGet_eq_some {α : Type} (m : List (String × α)) (k : String)
    (v : α) (h : alGet m k = some v) : (k, v) ∈ m := by
  induction m with
  | nil => simp [alGet] at h
  | cons p rest ih =>
    obtain ⟨a, b⟩ := p
    by_cases hp : a = k
    · subst hp
      simp only [alGet, if_pos rfl] at h
      cases h
      exact List.mem_cons_self _ _
    · simp only [alGet, if_neg hp] at h
      exact List.mem_cons_of_mem _ (ih h)

theorem alGet_eq_some_of_mem {α : Type} (m : List (String × α)) (k : String)
    (v : α) (hnd : (m.map Prod.fst).Nodup) (h : (k, v) ∈ m) :
    alGet m k = some v := by
  induction m with
  | nil => simp at h
  | cons p rest ih =>
    obtain ⟨a, b⟩ := p
    rw [List.map_cons, List.nodup_cons] at hnd
    rcases List.mem_cons.mp h with h1 | h1
    · cases h1
      simp [alGet]
    · have hk : k ∈ rest.map Prod.fst :=
        List.mem_map.mpr ⟨(k, v), h1, rfl⟩
      have hp : a ≠ k := fun hpk => hnd.1 (by rw [hpk]; exact hk)
      simp only [alGet, if_neg hp]
      exact ih hnd.2 h1

/-! ### Membership in the differencer's accumulated sets -/

theorem mem_foldl_addIf (cond : String × Row → Prop) [DecidablePred cond]
    (l : List (String × Row)) (init : List String) (y : String) :
    y ∈ l.foldl (fun acc p => if cond p then addToSet acc p.1 else acc) init ↔
      y ∈ init ∨ ∃ p, p ∈ l ∧ p.1 = y ∧ cond p := by
  induction l generalizing init with
  | nil => simp
  | cons a t ih =>
    rw [List.foldl_cons, ih]
    by_cases ha : cond a
    · rw [if_pos ha]
      constructor
      · rintro (hy | ⟨p, hp, rfl, hc⟩)
        · rcases (addToSet_mem init a.1 y).mp hy with hy' | rfl
          · exact Or.inl hy'
          · exact Or.inr ⟨a, List.mem_cons_self _ _, rfl, ha⟩
        · exact Or.inr ⟨p, List.mem_cons_of_mem _ hp, rfl, hc⟩
      · rintro (hy | ⟨p, hp, rfl, hc⟩)
        · exact Or.inl ((addToSet_mem init a.1 y).mpr (Or.inl hy))
        · rcases List.mem_cons.mp hp with rfl | hp
          · exact Or.inl ((addToSet_mem init p.1 p.1).mpr (Or.inr rfl))
          · exact Or.inr ⟨p, hp, rfl, hc⟩
    · rw [if_neg ha]
      constructor
      · rintro (hy | ⟨p, hp, rfl, hc⟩)
        · exact Or.inl hy
        · exact Or.inr ⟨p, List.mem_cons_of_mem _ hp, rfl, hc⟩
      · rintro (hy | ⟨p, hp, rfl, hc⟩)
        · exact Or.inl hy
        · rcases List.mem_cons.mp hp with rfl | hp
          · exact absurd hc ha
          · exact Or.inr ⟨p, hp, rfl, hc⟩

theorem trackTable_step1_eq (am : List (String × Row)) :
    (fun (acc : List String) (p : String × Row) =>
        match alGet am p.1 with
        | none => addToSet acc p.1
        | some afterRow => if p.2 = afterRow then acc else addToSet acc p.1) =
      fun acc p => if alGet am p.1 ≠ some p.2 then addToSet acc p.1 else acc := by
  funext acc p
  rcases h : alGet am p.1 with _ | ar
  · simp
  · by_cases h2 : p.2 = ar
    · subst h2
      simp
    · simp [h2, Ne.symm h2]

theorem trackTable_step2_eq (bm : List (String × Row)) :
    (fun (acc : List String) (p : String × Row) =>
        match alGet bm p.1 with
        | some _ => acc
        | none => addToSet acc p.1) =
      fun acc p => if alGet bm p.1 = none then addToSet acc p.1 else acc := by
  funext acc p
  rcases h : alGet bm p.1 with _ | br
  · simp
  · simp

theorem trackTable_eq (modified : List String) (before after : List Row) :
    trackTable modified before after =
      (buildMap after).foldl
        (fun acc p =>
          match alGet (buildMap before) p.1 with
          | some _ => acc
          | none => addToSet acc p.1)
        ((buildMap before).foldl
          (fun acc p =>
            match alGet (buildMap after) p.1 with
            | none => addToSet acc p.1
            | some afterRow => if p.2 = afterRow then acc else addToSet acc p.1)
          modified) := rfl

/-- Modelled from the spec (§4.4, for comparison with the code): a row id
changed between the keyed snapshots — a deletion (present in `before`,
absent from `after`), an insertion (present in `after`, absent from
`before`), or a modification (present in both with the rows differing
under structural equality). -/
def specRowChanged (before after : List Row) (y : String) : Prop :=
  ((alGet (buildMap before) y).isSome ∧ alGet (buildMap after) y = none)
  ∨ ((alGet (buildMap after) y).isSome ∧ alGet (buildMap before) y = none)
  ∨ (∃ rb ra, alGet (buildMap before) y = some rb ∧ alGet (buildMap after) y = some ra ∧ rb ≠ ra)

theorem trackTable_mem (modified : List String) (before after : List Row)
    (y : String) :
    y ∈ trackTable modified before after ↔
      y ∈ modified ∨ specRowChanged before after y := by
  rw [trackTable_eq, trackTable_step1_eq, trackTable_step2_eq,
    mem_foldl_addIf, mem_foldl_addIf]
  have hbm := buildMap_keys_nodup before
  have ham := buildMap_keys_nodup after
  unfold specRowChanged
  constructor
  · rintro ((hy | ⟨p, hp, rfl, hc⟩) | ⟨p, hp, rfl, hc⟩)
    · exact Or.inl hy
    · have hget : alGet (buildMap before) p.1 = some p.2 :=
        alGet_eq_some_of_mem _ _ _ hbm hp
      rcases hafter : alGet (buildMap after) p.1 with _ | ra
      · refine Or.inr (Or.inl ⟨?_, rfl⟩)
        rw [hget]
        rfl
      · refine Or.inr (Or.inr (Or.inr ⟨p.2, ra, hget, rfl, ?_⟩))
        intro hcontra
        exact hc (by rw [hafter, hcontra])
    · have hget : alGet (buildMap after) p.1 = some p.2 :=
        alGet_eq_some_of_mem _ _ _ ham hp
      refine Or.inr (Or.inr (Or.inl ⟨?_, hc⟩))
      rw [hget]
      rfl
  · rintro (hy | ⟨hsome, hnone⟩ | ⟨hsome, hnone⟩ | ⟨rb, ra, hb, ha2, hne⟩)
    · exact Or.inl (Or.inl hy)
    · rcases Option.isSome_iff_exists.mp hsome with ⟨rb, hb⟩
      refine Or.inl (Or.inr ⟨(y, rb), mem_of_alGet_eq_some _ _ _ hb, rfl, ?_⟩)
      show alGet (buildMap after) y ≠ some rb
      rw [hnone]
      simp
    · rcases Option.isSome_iff_exists.mp hsome with ⟨ra, ha2⟩
      refine Or.inr ⟨(y, ra), mem_of_alGet_eq_some _ _ _ ha2, rfl, ?_⟩
      exact hnone
    · refine Or.inl (Or.inr ⟨(y, rb), mem_of_alGet_eq_some _ _ _ hb, rfl, ?_⟩)
      show alGet (buildMap after) y ≠ some rb
      rw [ha2]
      intro hc
      exact hne ((Option.some.inj hc).symm)

/-! ### Classifier normalization lemmas -/

theorem getLast?_map_fn (f : Char → Char) (l : List Char) :
    (l.map f).getLast? = (l.getLast?).map f := by
  induction l with
  | nil => rfl
  | cons a t ih =>
    cases t with
    | nil => rfl
    | cons b t' =>
      simp only [List.map_cons] at ih ⊢
      rw [List.getLast?_cons_cons, List.getLast?_cons_cons]
      exact ih

theorem dropLast_map_fn (f : Char → Char) (l : List Char) :
    (l.map f).dropLast = (l.dropLast).map f := by
  induction l with
  | nil => rfl
  | cons a t ih =>
    cases t with
    | nil => rfl
    | cons b t' =>
      simp only [List.map_cons] at ih ⊢
      rw [List.dropLast_cons₂, List.dropLast_cons₂]
      rw [ih, List.map_cons]

theorem charLookup_val_mem {m : List (Char × Char)} {c u : Char}
    (h : charLookup m c = some u) : ∃ p, p ∈ m ∧ p.2 = u := by
  induction m with
  | nil => simp [charLookup] at h
  | cons p rest ih =>
    obtain ⟨a, b⟩ := p
    by_cases ha : a = c
    · simp only [charLookup, if_pos ha] at h
      exact ⟨(a, b), List.mem_cons_self _ _, Option.some.inj h⟩
    · simp only [charLookup, if_neg ha] at h
      rcases ih h with ⟨q, hq, hv⟩
      exact ⟨q, List.mem_cons_of_mem _ hq, hv⟩

theorem jsUpperChar_ne_semi (c : Char) (h : c ≠ ';') : jsUpperChar c ≠ ';' := by
  intro hcon
  unfold jsUpperChar at hcon
  rcases hl : charLookup upperPairs c with _ | u
  · rw [hl] at hcon
    exact h hcon
  · rw [hl] at hcon
    rcases charLookup_val_mem hl with ⟨p, hp, hv⟩
    have hall : ∀ p, p ∈ upperPairs → p.2 ≠ ';' := by decide
    exact hall p hp (by rw [hv]; exact hcon)

theorem stripSemi_jsUpper_comm (l : List Char) :
    stripSemiList (jsUpperList l) = jsUpperList (stripSemiList l) := by
  unfold stripSemiList jsUpperList
  rw [getLast?_map_fn]
  rcases h : l.getLast? with _ | c
  · simp
  · by_cases hc : c = ';'
    · subst hc
      rw [if_pos (by decide), if_pos rfl]
      exact dropLast_map_fn _ _
    · have h2 : jsUpperChar c ≠ ';' := jsUpperChar_ne_semi c hc
      rw [if_neg (fun hh => h2 (by simpa using hh)),
        if_neg (fun hh => hc (Option.some.inj hh))]

theorem normalizeCode_eq_specNormalize (l : List Char) :
    normalizeCodeList l = specNormalizeList l := by
  unfold normalizeCodeList specNormalizeList
  exact stripSemi_jsUpper_comm (jsTrimList l)

theorem parseTransactionCommand_eq (sql : String) :
    parseTransactionCommand sql =
      (if normalizeCodeList sql.toList = "BEGIN".toList ∨
          startsWithList (normalizeCodeList sql.toList) "BEGIN ".toList = true then
        some TransactionCommand.beginCmd
      else if normalizeCodeList sql.toList = "COMMIT".toList then
        some TransactionCommand.commitCmd
      else if normalizeCodeList sql.toList = "ROLLBACK".toList then
        some TransactionCommand.rollbackCmd
      else none) := rfl

/-! ### Claim theorems: the snapshot differencer and the classifier -/

/-- Claim C1: within one transaction the per-table differencer adds a
row id to the accumulated `modifiedRows` set exactly when the id is a
deletion, insertion, or structural modification between the keyed
`before` and `after` snapshots; ids identical in both snapshots are
never added, no id is ever removed, and this holds for both tracked
tables. -/
theorem trackModifiedRows_spec (m : ModifiedRows)
    (before after : List Row × List Row) (y : String) :
    (y ∈ (trackModifiedRows m before after).accounts ↔
      y ∈ m.accounts ∨ specRowChanged before.1 after.1 y)
    ∧ (y ∈ (trackModifiedRows m before after).products ↔
      y ∈ m.products ∨ specRowChanged before.2 after.2 y)
    ∧ m.accounts ⊆ (trackModifiedRows m before after).accounts
    ∧ m.products ⊆ (trackModifiedRows m before after).products := by
  refine ⟨trackTable_mem _ _ _ _, trackTable_mem _ _ _ _, ?_, ?_⟩
  · intro z hz
    exact (trackTable_mem _ _ _ _).mpr (Or.inl hz)
  · intro z hz
    exact (trackTable_mem _ _ _ _).mpr (Or.inl hz)

/-- Claim C7: the transaction-command classifier is a pure function of
the SQL text; after trimming, stripping one trailing terminator and
upper-casing (the spec's normalization order) it recognizes exactly
`BEGIN` / `BEGIN `-prefixed input as BEGIN, exactly `COMMIT` as COMMIT,
exactly `ROLLBACK` as ROLLBACK, and everything else as ordinary. -/
theorem parseTransactionCommand_classification (sql : String) :
    (parseTransactionCommand sql = some TransactionCommand.beginCmd ↔
      (specNormalizeList sql.toList = "BEGIN".toList ∨
       startsWithList (specNormalizeList sql.toList) "BEGIN ".toList = true))
    ∧ (parseTransactionCommand sql = some TransactionCommand.commitCmd ↔
      specNormalizeList sql.toList = "COMMIT".toList)
    ∧ (parseTransactionCommand sql = some TransactionCommand.rollbackCmd ↔
      specNormalizeList sql.toList = "ROLLBACK".toList)
    ∧ (parseTransactionCommand sql = none ↔
      ¬((specNormalizeList sql.toList = "BEGIN".toList ∨
         startsWithList (specNormalizeList sql.toList) "BEGIN ".toList = true)
        ∨ specNormalizeList sql.toList = "COMMIT".toList
        ∨ specNormalizeList sql.toList = "ROLLBACK".toList)) := by
  rw [parseTransactionCommand_eq, normalizeCode_eq_specNormalize]
  by_cases hb : specNormalizeList sql.toList = "BEGIN".toList ∨
      startsWithList (specNormalizeList sql.toList) "BEGIN ".toList = true
  · rw [if_pos hb]
    refine ⟨⟨fun _ => hb, fun _ => rfl⟩, ⟨fun ha1 => ?_, fun ha2 => ?_⟩,
      ⟨fun ha3 => ?_, fun ha4 => ?_⟩, ⟨fun ha5 => ?_, fun ha6 => ?_⟩⟩
    · exact absurd (Option.some.inj ha1) (by decide)
    · exfalso
      rcases hb with hb1 | hb1
      · rw [ha2] at hb1
        exact absurd hb1 (by decide)
      · rw [ha2] at hb1
        exact absurd hb1 (by decide)
    · exact absurd (Option.some.inj ha3) (by decide)
    · exfalso
      rcases hb with hb1 | hb1
      · rw [ha4] at hb1
        exact absurd hb1 (by decide)
      · rw [ha4] at hb1
        exact absurd hb1 (by decide)
    · exact absurd ha5 (by decide)
    · exact absurd (Or.inl hb) ha6
  · rw [if_neg hb]
    by_cases hc : specNormalizeList sql.toList = "COMMIT".toList
    · rw [if_pos hc]
      refine ⟨⟨fun hk1 => ?_, fun hk2 => ?_⟩, ⟨fun _ => hc, fun _ => rfl⟩,
        ⟨fun hk3 => ?_, fun hk4 => ?_⟩, ⟨fun hk5 => ?_, fun hk6 => ?_⟩⟩
      · exact absurd (Option.some.inj hk1) (by decide)
      · exact absurd hk2 hb
      · exact absurd (Option.some.inj hk3) (by decide)
      · rw [hc] at hk4
        exact absurd hk4 (by decide)
      · exact absurd hk5 (by decide)
      · exact absurd (Or.inr (Or.inl hc)) hk6
    · rw [if_neg hc]
      by_cases hr : specNormalizeList sql.toList = "ROLLBACK".toList
      · rw [if_pos hr]
        refine ⟨⟨fun hm1 => ?_, fun hm2 => ?_⟩, ⟨fun hm3 => ?_, fun hm4 => ?_⟩,
          ⟨fun _ => hr, fun _ => rfl⟩, ⟨fun hm5 => ?_, fun hm6 => ?_⟩⟩
        · exact absurd (Option.some.inj hm1) (by decide)
        · exact absurd hm2 hb
        · exact absurd (Option.some.inj hm3) (by decide)
        · exact absurd hm4 hc
        · exact absurd hm5 (by decide)
        · exact absurd (Or.inr (Or.inr hr)) hm6
      · rw [if_neg hr]
        refine ⟨⟨fun hn1 => ?_, fun hn2 => ?_⟩, ⟨fun hn3 => ?_, fun hn4 => ?_⟩,
          ⟨fun hn5 => ?_, fun hn6 => ?_⟩, ⟨fun _ => ?_, fun _ => rfl⟩⟩
        · exact absurd hn1 (by decide)
        · exact absurd hn2 hb
        · exact absurd hn3 (by decide)
        · exact absurd hn4 hc
        · exact absurd hn5 (by decide)
        · exact absurd hn6 hr
        · rintro (h | h | h)
          · exact hb h
          · exact hc h
          · exact hr h

/-! ### Behaviour of the executor on each path -/

theorem etc_ret_facts (s : ActiveSession) (cmd : TransactionCommand)
    (r : QueryExecutionResult)
    (hr : (executeTransactionCommand s cmd).1 = ExecOutcome.ret r) :
    r.result.isSome = !r.error.isSome ∧ r.uncommitted = none
      ∧ (r.error = none →
          (executeTransactionCommand s cmd).2.modifiedRows = emptyModifiedRows
          ∧ (executeTransactionCommand s cmd).2.state.inTransaction =
              decide (cmd = TransactionCommand.beginCmd))
      ∧ (r.error ≠ none → (executeTransactionCommand s cmd).2 = s) := by
  cases cmd with
  | beginCmd =>
    by_cases ht : s.state.inTransaction = true
    · simp only [executeTransactionCommand, ht, if_true] at hr ⊢
      simp only [ExecOutcome.ret.injEq] at hr
      subst hr
      simp
    · simp only [executeTransactionCommand, if_neg ht, connQuery] at hr ⊢
      rcases hrep : s.conn.engine s.conn.k with ⟨rows, rc, f⟩ | e
      · simp only [hrep] at hr ⊢
        simp only [ExecOutcome.ret.injEq] at hr
        subst hr
        simp
      · simp only [hrep] at hr
        exact ExecOutcome.noConfusion hr
  | commitCmd =>
    by_cases ht : s.state.inTransaction = true
    · simp only [executeTransactionCommand, ht, if_true, connQuery] at hr ⊢
      rcases hrep : s.conn.engine s.conn.k with ⟨rows, rc, f⟩ | e
      · simp only [hrep] at hr ⊢
        simp only [ExecOutcome.ret.injEq] at hr
        subst hr
        simp
      · simp only [hrep] at hr
        exact ExecOutcome.noConfusion hr
    · simp only [executeTransactionCommand, if_neg ht] at hr ⊢
      simp only [ExecOutcome.ret.injEq] at hr
      subst hr
      simp
  | rollbackCmd =>
    by_cases ht : s.state.inTransaction = true
    · simp only [executeTransactionCommand, ht, if_true, connQuery] at hr ⊢
      rcases hrep : s.conn.engine s.conn.k with ⟨rows, rc, f⟩ | e
      · simp only [hrep] at hr ⊢
        simp only [ExecOutcome.ret.injEq] at hr
        subst hr
        simp
      · simp only [hrep] at hr
        exact ExecOutcome.noConfusion hr
    · simp only [executeTransactionCommand, if_neg ht] at hr ⊢
      simp only [ExecOutcome.ret.injEq] at hr
      subst hr
      simp

theorem erq_facts (s : ActiveSession) (sql : String) (r : QueryExecutionResult)
    (s' : ActiveSession) (h : executeRegularQuery s sql = (r, s')) :
    r.result.isSome = !r.error.isSome
    ∧ r.uncommitted.isSome = (r.error.isNone && s'.state.inTransaction)
    ∧ s'.state.sessionId = s.state.sessionId
    ∧ s'.state.createdAt = s.state.createdAt
    ∧ s'.terminalId = s.terminalId := by
  unfold executeRegularQuery at h
  split at h
  case isTrue ht =>
    split at h
    case h_1 e c1 heq =>
      simp only [catchClause, connQuery, ht, if_true] at h
      rcases h with ⟨rfl, rfl⟩
      simp
    case h_2 before c1 heq =>
      simp only [connQuery] at h
      split at h
      case h_1 e c2 heq2 =>
        simp only [catchClause, connQuery, ht, if_true] at h
        rcases h with ⟨rfl, rfl⟩
        simp
      case h_2 rows rc fs c2 heq2 =>
        split at h
        case h_1 e c3 heq3 =>
          simp only [catchClause, connQuery, ht, if_true] at h
          rcases h with ⟨rfl, rfl⟩
          simp
        case h_2 after c3 heq3 =>
          split at h
          case h_1 e c4 heq4 =>
            simp only [catchClause, connQuery, ht, if_true] at h
            rcases h with ⟨rfl, rfl⟩
            simp
          case h_2 snap c4 heq4 =>
            rcases h with ⟨rfl, rfl⟩
            simp [ht]
  case isFalse ht =>
    rw [Bool.not_eq_true] at ht
    simp only [connQuery] at h
    split at h
    case h_1 e c1 heq =>
      simp only [catchClause, connQuery, ht, if_false] at h
      rcases h with ⟨rfl, rfl⟩
      simp [ht]
    case h_2 rows rc fs c1 heq =>
      rcases h with ⟨rfl, rfl⟩
      simp [ht]

def frameProj (s : ActiveSession) : String × Nat × Nat :=
  (s.state.sessionId, s.state.createdAt, s.terminalId)

theorem etc_frame (s : ActiveSession) (cmd : TransactionCommand) :
    frameProj (executeTransactionCommand s cmd).2 = frameProj s := by
  cases cmd with
  | beginCmd =>
    by_cases ht : s.state.inTransaction = true
    · simp [executeTransactionCommand, ht]
    · simp only [executeTransactionCommand, if_neg ht, connQuery]
      rcases hrep : s.conn.engine s.conn.k with ⟨rows, rc, f⟩ | e <;> simp [frameProj]
  | commitCmd =>
    by_cases ht : s.state.inTransaction = true
    · simp only [executeTransactionCommand, ht, if_true, connQuery]
      rcases hrep : s.conn.engine s.conn.k with ⟨rows, rc, f⟩ | e <;> simp [frameProj]
    · simp [executeTransactionCommand, ht]
  | rollbackCmd =>
    by_cases ht : s.state.inTransaction = true
    · simp only [executeTransactionCommand, ht, if_true, connQuery]
      rcases hrep : s.conn.engine s.conn.k with ⟨rows, rc, f⟩ | e <;> simp [frameProj]
    · simp [executeTransactionCommand, ht]

theorem executeQuery_frame (reg : Registry) (id sql : String) :
    (alGet (executeQuery reg id sql).2 id).map frameProj =
      (alGet reg id).map frameProj := by
  unfold executeQuery
  split
  case h_1 halg => rfl
  case h_2 s halg =>
    split
    case h_1 cmd hp =>
      have hf := etc_frame s cmd
      split
      case h_1 e s1 heq =>
        rw [heq] at hf
        rw [halg]
        simp only [alGet_alSet_self, Option.map_some']
        rw [hf]
      case h_2 r s1 heq =>
        rw [heq] at hf
        split
        case isTrue hcond =>
          split
          case h_1 e c' hsnap =>
            rw [halg]
            simp only [alGet_alSet_self, Option.map_some']
            rw [← hf]
            rfl
          case h_2 snap c' hsnap =>
            rw [halg]
            simp only [alGet_alSet_self, Option.map_some']
            rw [← hf]
            rfl
        case isFalse hcond =>
          rw [halg]
          simp only [alGet_alSet_self, Option.map_some']
          rw [hf]
    case h_2 hp =>
      rcases hq : executeRegularQuery s sql with ⟨r1, s1⟩
      rw [halg]
      simp only [alGet_alSet_self, Option.map_some']
      have hf := erq_facts s sql r1 s1 hq
      simp [frameProj, hf.2.2.1, hf.2.2.2.1, hf.2.2.2.2]

theorem endTransaction_frame (reg : Registry) (id : String) (cmd : EndCommand) :
    (alGet (endTransaction reg id cmd).2 id).map frameProj =
      (alGet reg id).map frameProj := by
  unfold endTransaction
  split
  case h_1 halg => rfl
  case h_2 s halg =>
    split
    case isTrue ht =>
      simp only [connQuery]
      rcases hrep : s.conn.engine s.conn.k with ⟨rows, rc, f⟩ | e <;>
        simp [halg, alGet_alSet_self, frameProj]
    case isFalse ht => rfl

theorem setIsolationLevel_frame (reg : Registry) (id : String)
    (level : IsolationLevel) :
    (alGet (setIsolationLevel reg id level).2 id).map frameProj =
      (alGet reg id).map frameProj := by
  unfold setIsolationLevel
  split
  case h_1 halg => rfl
  case h_2 s halg =>
    split
    case isTrue ht => rfl
    case isFalse ht =>
      simp [halg, alGet_alSet_self, frameProj]

/-! ### Concrete sessions and registries used to instantiate theorems -/

/-- An engine that answers every query successfully with no rows. -/
def okEngine : Nat → EngineReply := fun _ => .ok [] none []

/-- A fresh connection over `okEngine`. -/
def connW : Conn := { engine := okEngine, k := 0, trace := [] }

/-- An idle session descriptor. -/
def stateIdleW : SessionState :=
  { sessionId := "s1", inTransaction := false
    isolationLevel := .readCommitted, createdAt := 0 }

/-- The same descriptor inside a transaction. -/
def stateTxW : SessionState := { stateIdleW with inTransaction := true }

/-- An idle session. -/
def sessIdleW : ActiveSession :=
  { conn := connW, state := stateIdleW, terminalId := 1
    modifiedRows := emptyModifiedRows }

/-- A session with an open transaction. -/
def sessTxW : ActiveSession :=
  { conn := connW, state := stateTxW, terminalId := 1
    modifiedRows := emptyModifiedRows }

/-- Registry holding the idle session. -/
def regIdleW : Registry := [("s1", sessIdleW)]

/-- Registry holding the in-transaction session. -/
def regTxW : Registry := [("s1", sessTxW)]

/-- An engine whose every reply is a connection error. -/
def failEngine : Nat → EngineReply :=
  fun _ => .err { message := "connection terminated" }

/-- An idle session whose connection always fails. -/
def sessIdleFailW : ActiveSession :=
  { conn := { engine := failEngine, k := 0, trace := [] }
    state := stateIdleW, terminalId := 1, modifiedRows := emptyModifiedRows }

/-- Registry holding the always-failing idle session. -/
def regFailW : Registry := [("s1", sessIdleFailW)]

/-- An engine that fails exactly on the third call (the ordinary
statement after the two before-snapshot reads). -/
def thirdFailEngine : Nat → EngineReply :=
  fun n => if n = 2 then
    .err { message := "syntax error", code := some "42601", detail := none }
  else .ok [] none []

/-- An in-transaction session whose next ordinary statement will raise
an engine error. -/
def sessTxFailW : ActiveSession :=
  { conn := { engine := thirdFailEngine, k := 0, trace := [] }
    state := stateTxW, terminalId := 1, modifiedRows := emptyModifiedRows }

/-- Registry holding that session. -/
def regTxFailW : Registry := [("s1", sessTxFailW)]

/-! ### Claim theorems: the transaction state machine -/

/-- Claim C5: every transaction-state violation (`BEGIN` while open,
`COMMIT`/`ROLLBACK` while closed — through `executeQuery` or through
`endTransaction` — and an isolation change while open) returns an error
and leaves the registry, hence the session's entire state and its
connection, untouched: no SQL is sent. -/
theorem stateViolation_no_side_effects :
    (∀ (reg : Registry) (id sql : String) (s : ActiveSession),
      alGet reg id = some s → s.state.inTransaction = true →
      parseTransactionCommand sql = some TransactionCommand.beginCmd →
      executeQuery reg id sql =
        (.ret { result := none
                error := some { message := "Transaction already in progress" }
                uncommitted := none }, reg))
    ∧ (∀ (reg : Registry) (id sql : String) (s : ActiveSession)
        (cmd : TransactionCommand),
      alGet reg id = some s → s.state.inTransaction = false →
      parseTransactionCommand sql = some cmd →
      cmd ≠ TransactionCommand.beginCmd →
      executeQuery reg id sql =
        (.ret { result := none
                error := some { message := "No transaction in progress" }
                uncommitted := none }, reg))
    ∧ (∀ (reg : Registry) (id : String) (s : ActiveSession) (cmd : EndCommand),
      alGet reg id = some s → s.state.inTransaction = false →
      endTransaction reg id cmd =
        ({ success := false, error := some { message := "No active transaction" } },
         reg))
    ∧ (∀ (reg : Registry) (id : String) (s : ActiveSession)
        (level : IsolationLevel),
      alGet reg id = some s → s.state.inTransaction = true →
      setIsolationLevel reg id level =
        ({ success := false
           error := some { message := "Cannot change isolation level during active transaction" } },
         reg)) := by
  refine ⟨?_, ?_, ?_, ?_⟩
  · intro reg id sql s h1 h2 h3
    simp only [executeQuery, h1, h3, executeTransactionCommand, h2, if_true]
    simp [alSet_eq_of_get reg id s h1]
  · intro reg id sql s cmd h1 h2 h3 h4
    cases cmd with
    | beginCmd => exact absurd rfl h4
    | commitCmd =>
      simp only [executeQuery, h1, h3, executeTransactionCommand, h2]
      simp [alSet_eq_of_get reg id s h1]
    | rollbackCmd =>
      simp only [executeQuery, h1, h3, executeTransactionCommand, h2]
      simp [alSet_eq_of_get reg id s h1]
  · intro reg id s cmd h1 h2
    simp [endTransaction, h1, h2]
  · intro reg id s level h1 h2
    simp [setIsolationLevel, h1, h2]

/-- Instantiation of `stateViolation_no_side_effects` on concrete
registries, discharging every hypothesis. -/
theorem stateViolation_no_side_effects_witness :
    executeQuery regTxW "s1" "BEGIN" =
      (.ret { result := none
              error := some { message := "Transaction already in progress" }
              uncommitted := none }, regTxW)
    ∧ executeQuery regIdleW "s1" "COMMIT" =
      (.ret { result := none
              error := some { message := "No transaction in progress" }
              uncommitted := none }, regIdleW)
    ∧ endTransaction regIdleW "s1" EndCommand.commitEnd =
      ({ success := false, error := some { message := "No active transaction" } },
       regIdleW)
    ∧ setIsolationLevel regTxW "s1" IsolationLevel.serializable =
      ({ success := false
         error := some { message := "Cannot change isolation level during active transaction" } },
       regTxW) :=
  ⟨stateViolation_no_side_effects.1 regTxW "s1" "BEGIN" sessTxW rfl rfl rfl,
   stateViolation_no_side_effects.2.1 regIdleW "s1" "COMMIT" sessIdleW
     TransactionCommand.commitCmd rfl rfl rfl (by decide),
   stateViolation_no_side_effects.2.2.1 regIdleW "s1" sessIdleW
     EndCommand.commitEnd rfl rfl,
   stateViolation_no_side_effects.2.2.2 regTxW "s1" sessTxW
     IsolationLevel.serializable rfl rfl⟩

/-- Claim C2: `modifiedRows` is empty for both tracked tables
immediately after `createSession`, after every successful transaction
command executed through `executeQuery` (`BEGIN`, `COMMIT`, `ROLLBACK`),
and after every successful explicit `commit`/`rollback`
(`endTransaction`). -/
theorem modifiedRows_empty_at_boundaries :
    (∀ (reg : Registry) (id : String) (tid : Nat) (conn : Conn) (now : Nat)
        (lvl : IsolationLevel),
      (alGet (createSession reg id tid conn now lvl).2 id).map
          (fun s => s.modifiedRows) = some emptyModifiedRows)
    ∧ (∀ (reg : Registry) (id sql : String) (cmd : TransactionCommand)
        (out : ExecOutcome) (reg' : Registry),
      parseTransactionCommand sql = some cmd →
      executeQuery reg id sql = (out, reg') →
      ∀ r, out = ExecOutcome.ret r → r.error = none →
      (alGet reg' id).map (fun s => s.modifiedRows) = some emptyModifiedRows)
    ∧ (∀ (reg : Registry) (id : String) (cmd : EndCommand),
      ((endTransaction reg id cmd).1).success = true →
      (alGet (endTransaction reg id cmd).2 id).map (fun s => s.modifiedRows) =
        some emptyModifiedRows) := by
  refine ⟨?_, ?_, ?_⟩
  · intro reg id tid conn now lvl
    simp [createSession, alGet_alSet_self]
  · intro reg id sql cmd out reg' hp hE r hr he
    unfold executeQuery at hE
    split at hE
    case h_1 halg =>
      rcases hE with ⟨rfl, rfl⟩
      rw [ExecOutcome.ret.injEq] at hr
      rw [← hr] at he
      simp at he
    case h_2 s halg =>
      split at hE
      case h_2 hpn =>
        rw [hp] at hpn
        exact Option.noConfusion hpn
      case h_1 cmd2 hp2 =>
        split at hE
        case h_1 e s1 heq =>
          rcases hE with ⟨rfl, rfl⟩
          exact ExecOutcome.noConfusion hr
        case h_2 r0 s1 heq =>
          have hfacts := etc_ret_facts s cmd2 r0 (by rw [heq])
          split at hE
          case isTrue hcond =>
            split at hE
            case h_1 e c' hsnap =>
              rcases hE with ⟨rfl, rfl⟩
              exact ExecOutcome.noConfusion hr
            case h_2 snap c' hsnap =>
              rcases hE with ⟨rfl, rfl⟩
              have hmr := (hfacts.2.2.1 hcond.1).1
              rw [heq] at hmr
              simp only [alGet_alSet_self, Option.map_some']
              rw [hmr]
          case isFalse hcond =>
            rcases hE with ⟨rfl, rfl⟩
            rw [ExecOutcome.ret.injEq] at hr
            subst hr
            have hmr := (hfacts.2.2.1 he).1
            rw [heq] at hmr
            simp only [alGet_alSet_self, Option.map_some']
            rw [hmr]
  · intro reg id cmd hs
    unfold endTransaction at hs ⊢
    split at hs
    case h_1 halg => simp at hs
    case h_2 s halg =>
      split at hs
      case isTrue ht =>
        simp only [connQuery] at hs ⊢
        rcases hrep : s.conn.engine s.conn.k with ⟨rows, rc, f⟩ | e
        · simp [hrep, ht, alGet_alSet_self]
        · rw [hrep] at hs
          simp at hs
      case isFalse ht => simp at hs

/-- The uncommitted snapshot returned right after a successful `BEGIN`
on the concrete empty-table engine. -/
def beginSnapW : UncommittedSnapshot :=
  { terminalId := 1, accounts := [], products := []
    modifiedAccounts := [], modifiedProducts := [] }

/-- The `QueryExecutionResult` of that successful `BEGIN`. -/
def beginRetW : QueryExecutionResult :=
  { result := some emptyResult, error := none, uncommitted := some beginSnapW }

/-- Instantiation of `modifiedRows_empty_at_boundaries` on concrete
registries, discharging every hypothesis. -/
theorem modifiedRows_empty_at_boundaries_witness :
    ((alGet (createSession [] "s1" 1 connW 0 IsolationLevel.readCommitted).2 "s1").map
        (fun s => s.modifiedRows) = some emptyModifiedRows)
    ∧ ((alGet (executeQuery regIdleW "s1" "BEGIN").2 "s1").map
        (fun s => s.modifiedRows) = some emptyModifiedRows)
    ∧ ((alGet (endTransaction regTxW "s1" EndCommand.commitEnd).2 "s1").map
        (fun s => s.modifiedRows) = some emptyModifiedRows) :=
  ⟨modifiedRows_empty_at_boundaries.1 [] "s1" 1 connW 0 IsolationLevel.readCommitted,
   modifiedRows_empty_at_boundaries.2.1 regIdleW "s1" "BEGIN"
     TransactionCommand.beginCmd (executeQuery regIdleW "s1" "BEGIN").1
     (executeQuery regIdleW "s1" "BEGIN").2 rfl rfl beginRetW rfl rfl,
   modifiedRows_empty_at_boundaries.2.2 regTxW "s1" EndCommand.commitEnd rfl⟩

/-- Claim C3: an ordinary statement that raises an engine error inside a
transaction makes `executeQuery` roll back on the session's own
connection (visible as the trailing `ROLLBACK` in the trace after the
two before-snapshot reads and the failing statement), leave the
transaction, clear both modified-row sets, and return exactly the engine
error, while the session — identity unchanged — stays in the
registry. -/
theorem implicitRollback_on_engine_error (reg : Registry) (id sql : String)
    (s : ActiveSession) (e : QueryError)
    (rows1 : List Row) (rc1 : Option Nat) (f1 : List RawField)
    (rows2 : List Row) (rc2 : Option Nat) (f2 : List RawField)
    (halg : alGet reg id = some s) (ht : s.state.inTransaction = true)
    (hp : parseTransactionCommand sql = none)
    (h0 : s.conn.engine s.conn.k = EngineReply.ok rows1 rc1 f1)
    (h1 : s.conn.engine (s.conn.k + 1) = EngineReply.ok rows2 rc2 f2)
    (h2 : s.conn.engine (s.conn.k + 2) = EngineReply.err e) :
    (executeQuery reg id sql).1 =
      ExecOutcome.ret { result := none, error := some e, uncommitted := none }
    ∧ (alGet (executeQuery reg id sql).2 id).map
        (fun s' => s'.state.inTransaction) = some false
    ∧ (alGet (executeQuery reg id sql).2 id).map
        (fun s' => s'.modifiedRows) = some emptyModifiedRows
    ∧ (alGet (executeQuery reg id sql).2 id).map
        (fun s' => s'.conn.trace) =
      some (s.conn.trace ++ [selectAccountsSql, selectProductsSql, sql, "ROLLBACK"])
    ∧ (alGet (executeQuery reg id sql).2 id).map
        (fun s' => s'.state.sessionId) = some s.state.sessionId := by
  simp only [executeQuery, halg, hp, executeRegularQuery, ht, if_true,
    getRawSnapshotFrom, connQuery, h0, h1, h2, catchClause,
    alGet_alSet_self, Option.map_some']
  simp

/-- Instantiation of `implicitRollback_on_engine_error` on a concrete
session whose third engine call fails, discharging every hypothesis. -/
theorem implicitRollback_on_engine_error_witness :
    (executeQuery regTxFailW "s1" "SELECT * FROM accounts").1 =
      ExecOutcome.ret
        { result := none
          error := some { message := "syntax error", code := some "42601", detail := none }
          uncommitted := none }
    ∧ (alGet (executeQuery regTxFailW "s1" "SELECT * FROM accounts").2 "s1").map
        (fun s' => s'.state.inTransaction) = some false
    ∧ (alGet (executeQuery regTxFailW "s1" "SELECT * FROM accounts").2 "s1").map
        (fun s' => s'.modifiedRows) = some emptyModifiedRows
    ∧ (alGet (executeQuery regTxFailW "s1" "SELECT * FROM accounts").2 "s1").map
        (fun s' => s'.conn.trace) =
      some ([] ++ [selectAccountsSql, selectProductsSql,
        "SELECT * FROM accounts", "ROLLBACK"])
    ∧ (alGet (executeQuery regTxFailW "s1" "SELECT * FROM accounts").2 "s1").map
        (fun s' => s'.state.sessionId) = some "s1" :=
  implicitRollback_on_engine_error regTxFailW "s1" "SELECT * FROM accounts"
    sessTxFailW
    { message := "syntax error", code := some "42601", detail := none }
    [] none [] [] none [] rfl rfl rfl rfl rfl rfl

/-- Claim C4 (amended): the response of `executeQuery` carries an
uncommitted snapshot exactly when the operation succeeded (no error)
and the session is in a transaction afterwards; on error outcomes —
including `BEGIN` while a transaction is already open, which leaves the
session in a transaction — the snapshot is absent. -/
theorem executeQuery_uncommitted_iff (reg : Registry) (id sql : String)
    (out : ExecOutcome) (reg' : Registry)
    (hE : executeQuery reg id sql = (out, reg'))
    (r : QueryExecutionResult) (hr : out = ExecOutcome.ret r) :
    r.uncommitted.isSome =
      (r.error.isNone &&
        ((getSessionState reg' id).map (fun st => st.inTransaction)).getD false) := by
  unfold executeQuery at hE
  split at hE
  case h_1 halg =>
    rcases hE with ⟨rfl, rfl⟩
    rw [ExecOutcome.ret.injEq] at hr
    subst hr
    simp
  case h_2 s halg =>
    split at hE
    case h_2 hpn =>
      rcases hq : executeRegularQuery s sql with ⟨r1, s1⟩
      rw [hq] at hE
      rcases hE with ⟨rfl, rfl⟩
      rw [ExecOutcome.ret.injEq] at hr
      subst hr
      have hf := erq_facts s sql r1 s1 hq
      rw [hf.2.1]
      simp [getSessionState, alGet_alSet_self]
    case h_1 cmd2 hp2 =>
      split at hE
      case h_1 e s1 heq =>
        rcases hE with ⟨rfl, rfl⟩
        exact ExecOutcome.noConfusion hr
      case h_2 r0 s1 heq =>
        have hfacts := etc_ret_facts s cmd2 r0 (by rw [heq])
        split at hE
        case isTrue hcond =>
          split at hE
          case h_1 e c' hsnap =>
            rcases hE with ⟨rfl, rfl⟩
            exact ExecOutcome.noConfusion hr
          case h_2 snap c' hsnap =>
            rcases hE with ⟨rfl, rfl⟩
            rw [ExecOutcome.ret.injEq] at hr
            subst hr
            have hin := (hfacts.2.2.1 hcond.1).2
            rw [heq] at hin
            simp [hcond.2] at hin
            simp [getSessionState, alGet_alSet_self, hcond.1, hin]
        case isFalse hcond =>
          rcases hE with ⟨rfl, rfl⟩
          rw [ExecOutcome.ret.injEq] at hr
          subst hr
          by_cases he : r0.error = none
          · have hne : cmd2 ≠ TransactionCommand.beginCmd := by
              intro hc
              exact hcond ⟨he, hc⟩
            have hin := (hfacts.2.2.1 he).2
            rw [heq] at hin
            simp [hne] at hin
            rw [hfacts.2.1]
            simp [getSessionState, alGet_alSet_self, he, hin]
          · rw [hfacts.2.1]
            rcases ho : r0.error with _ | e2
            · exact absurd ho he
            · simp [ho]

/-- Counterexample to claim C4 as stated: `BEGIN` on a session whose
transaction is already open returns an error without an uncommitted
snapshot even though the session is still in a transaction after the
operation. -/
theorem uncommitted_absent_beginWhileOpen :
    (executeQuery regTxW "s1" "BEGIN").1 =
      ExecOutcome.ret
        { result := none
          error := some { message := "Transaction already in progress" }
          uncommitted := none }
    ∧ ((getSessionState (executeQuery regTxW "s1" "BEGIN").2 "s1").map
        (fun st => st.inTransaction)) = some true := ⟨rfl, rfl⟩

/-- The `QueryExecutionResult` of a successful in-transaction ordinary
statement on the concrete empty-table engine. -/
def updateRetW : QueryExecutionResult :=
  { result := some (buildQueryResult [] none [])
    error := none
    uncommitted := some beginSnapW }

/-- Instantiation of `executeQuery_uncommitted_iff` on a concrete
in-transaction ordinary statement, discharging every hypothesis. -/
theorem executeQuery_uncommitted_iff_witness :
    updateRetW.uncommitted.isSome =
      (updateRetW.error.isNone &&
        ((getSessionState
            (executeQuery regTxW "s1" "UPDATE accounts SET balance = 0 WHERE id = 1").2
            "s1").map (fun st => st.inTransaction)).getD false) :=
  executeQuery_uncommitted_iff regTxW "s1"
    "UPDATE accounts SET balance = 0 WHERE id = 1"
    (executeQuery regTxW "s1" "UPDATE accounts SET balance = 0 WHERE id = 1").1
    (executeQuery regTxW "s1" "UPDATE accounts SET balance = 0 WHERE id = 1").2
    rfl updateRetW rfl

/-- Claim C8 (amended): whenever `executeQuery` resolves, its outcome
carries exactly one of a result or an error, and for every ordinary
statement it always resolves; a transaction command (or the snapshot
read after `BEGIN`) whose engine call fails instead propagates the
exception (see `executeQuery_beginFailure_throws`). -/
theorem executeQuery_outcome_exclusive :
    (∀ (reg : Registry) (id sql : String) (out : ExecOutcome) (reg' : Registry),
      executeQuery reg id sql = (out, reg') →
      ∀ r, out = ExecOutcome.ret r → r.result.isSome = !r.error.isSome)
    ∧ (∀ (reg : Registry) (id sql : String), parseTransactionCommand sql = none →
      ∃ r, (executeQuery reg id sql).1 = ExecOutcome.ret r) := by
  constructor
  · intro reg id sql out reg' hE r hr
    unfold executeQuery at hE
    split at hE
    case h_1 halg =>
      rcases hE with ⟨rfl, rfl⟩
      rw [ExecOutcome.ret.injEq] at hr
      subst hr
      simp
    case h_2 s halg =>
      split at hE
      case h_2 hpn =>
        rcases hq : executeRegularQuery s sql with ⟨r1, s1⟩
        rw [hq] at hE
        rcases hE with ⟨rfl, rfl⟩
        rw [ExecOutcome.ret.injEq] at hr
        subst hr
        exact (erq_facts s sql r1 s1 hq).1
      case h_1 cmd2 hp2 =>
        split at hE
        case h_1 e s1 heq =>
          rcases hE with ⟨rfl, rfl⟩
          exact ExecOutcome.noConfusion hr
        case h_2 r0 s1 heq =>
          have hfacts := etc_ret_facts s cmd2 r0 (by rw [heq])
          split at hE
          case isTrue hcond =>
            split at hE
            case h_1 e c' hsnap =>
              rcases hE with ⟨rfl, rfl⟩
              exact ExecOutcome.noConfusion hr
            case h_2 snap c' hsnap =>
              rcases hE with ⟨rfl, rfl⟩
              rw [ExecOutcome.ret.injEq] at hr
              subst hr
              simpa using hfacts.1
          case isFalse hcond =>
            rcases hE with ⟨rfl, rfl⟩
            rw [ExecOutcome.ret.injEq] at hr
            subst hr
            exact hfacts.1
  · intro reg id sql hp
    unfold executeQuery
    split
    case h_1 halg => exact ⟨_, rfl⟩
    case h_2 s halg =>
      rw [hp]
      rcases hq : executeRegularQuery s sql with ⟨r1, s1⟩
      exact ⟨r1, rfl⟩

/-- Counterexample to claim C8 as stated: when the engine call backing
`BEGIN` fails, `executeQuery` rejects (throws) instead of completing
with a `QueryResult` or a `QueryError`. -/
theorem executeQuery_beginFailure_throws :
    (executeQuery regFailW "s1" "BEGIN").1 =
      ExecOutcome.thrown { message := "connection terminated" }
    ∧ ((executeQuery regFailW "s1" "BEGIN").1).isRet = false := ⟨rfl, rfl⟩

/-- Instantiation of `executeQuery_outcome_exclusive` on a concrete
autocommit statement, discharging every hypothesis. -/
theorem executeQuery_outcome_exclusive_witness :
    (some (buildQueryResult [] none []) : Option QueryResult).isSome =
      !(none : Option QueryError).isSome
    ∧ ∃ r, (executeQuery regIdleW "s1" "SELECT 1").1 = ExecOutcome.ret r :=
  ⟨executeQuery_outcome_exclusive.1 regIdleW "s1" "SELECT 1"
      (executeQuery regIdleW "s1" "SELECT 1").1
      (executeQuery regIdleW "s1" "SELECT 1").2 rfl
      { result := some (buildQueryResult [] none [])
        error := none
        uncommitted := none } rfl,
   executeQuery_outcome_exclusive.2 regIdleW "s1" "SELECT 1" rfl⟩

/-- Claim C9: `closeSession` is idempotent — closing an unknown or
already-closed id succeeds, changes nothing and sends no SQL, so a
second close of the same id is a no-op — and closing a session with an
open transaction issues `ROLLBACK` on its connection and removes the
session from the registry. -/
theorem closeSession_idempotent :
    (∀ (reg : Registry) (id : String), alGet reg id = none →
      closeSession reg id = (reg, []))
    ∧ (∀ (reg : Registry) (id : String),
      closeSession (closeSession reg id).1 id = ((closeSession reg id).1, []))
    ∧ (∀ (reg : Registry) (id : String) (s : ActiveSession),
      alGet reg id = some s → s.state.inTransaction = true →
      closeSession reg id = (alDelete reg id, ["ROLLBACK"])
      ∧ alGet (alDelete reg id) id = none) := by
  refine ⟨?_, ?_, ?_⟩
  · intro reg id h
    simp [closeSession, h]
  · intro reg id
    rcases h : alGet reg id with _ | s
    · simp [closeSession, h]
    · simp [closeSession, h, alGet_alDelete_self]
  · intro reg id s h1 h2
    exact ⟨by simp [closeSession, h1, h2], alGet_alDelete_self reg id⟩

/-- Instantiation of `closeSession_idempotent` on concrete registries,
discharging every hypothesis. -/
theorem closeSession_idempotent_witness :
    closeSession ([] : Registry) "s1" = ([], [])
    ∧ closeSession (closeSession regTxW "s1").1 "s1" =
        ((closeSession regTxW "s1").1, [])
    ∧ (closeSession regTxW "s1" = (alDelete regTxW "s1", ["ROLLBACK"])
       ∧ alGet (alDelete regTxW "s1") "s1" = none) :=
  ⟨closeSession_idempotent.1 [] "s1" rfl,
   closeSession_idempotent.2.1 regTxW "s1",
   closeSession_idempotent.2.2 regTxW "s1" sessTxW rfl rfl⟩

/-- Claim C10: no operation ever mutates a session's identity —
`sessionId`, `createdAt` and the owning terminal are preserved by
`executeQuery` (any SQL), `commit`, `rollback` and `setIsolationLevel`;
only `inTransaction`, `isolationLevel` and `modifiedRows` (and the
connection's activity) can change. -/
theorem session_identity_frame :
    (∀ (reg : Registry) (id sql : String),
      (alGet (executeQuery reg id sql).2 id).map frameProj =
        (alGet reg id).map frameProj)
    ∧ (∀ (reg : Registry) (id : String),
      (alGet (commitSession reg id).2 id).map frameProj =
        (alGet reg id).map frameProj)
    ∧ (∀ (reg : Registry) (id : String),
      (alGet (rollbackSession reg id).2 id).map frameProj =
        (alGet reg id).map frameProj)
    ∧ (∀ (reg : Registry) (id : String) (level : IsolationLevel),
      (alGet (setIsolationLevel reg id level).2 id).map frameProj =
        (alGet reg id).map frameProj) :=
  ⟨executeQuery_frame,
   fun reg id => endTransaction_frame reg id EndCommand.commitEnd,
   fun reg id => endTransaction_frame reg id EndCommand.rollbackEnd,
   setIsolationLevel_frame⟩

/-- Claim C6 (amended): an `execute` response always carries the
session's current descriptor (present exactly when the session still
exists), even on error; but `commit`, `rollback` and
`set-isolation-level` error responses carry only the session id and the
message — never the descriptor. -/
theorem error_response_descriptor_policy :
    (∀ (reg : Registry) (id sql : String) (ev : QueryResultEvent)
        (reg' : Registry),
      handleExecuteQuery reg id sql = (Except.ok ev, reg') →
      ev.state = getSessionState reg' id)
    ∧ (∀ (reg : Registry) (id : String),
      ((handleCommit reg id).1.error).isSome = true →
      (handleCommit reg id).1.state = none)
    ∧ (∀ (reg : Registry) (id : String),
      ((handleRollback reg id).1.error).isSome = true →
      (handleRollback reg id).1.state = none)
    ∧ (∀ (reg : Registry) (id : String) (level : IsolationLevel),
      ((handleSetIsolation reg id level).1.error).isSome = true →
      (handleSetIsolation reg id level).1.state = none) := by
  refine ⟨?_, ?_, ?_, ?_⟩
  · intro reg id sql ev reg' h
    unfold handleExecuteQuery at h
    split at h
    case h_1 e reg2 heq => exact Except.noConfusion (congrArg Prod.fst h)
    case h_2 r reg2 heq =>
      have h1 := congrArg Prod.fst h
      have h2 := congrArg Prod.snd h
      simp only [Prod.fst, Prod.snd] at h1 h2
      subst h2
      rw [Except.ok.injEq] at h1
      rw [← h1]
  · intro reg id h
    unfold handleCommit at h ⊢
    rcases herr : (commitSession reg id).1.error with _ | e
    · rw [herr] at h
      unfold getSessionResult at h ⊢
      rcases hst : getSessionState (commitSession reg id).2 id with _ | st
      · rfl
      · rw [hst] at h
        simp at h
    · rfl
  · intro reg id h
    unfold handleRollback at h ⊢
    rcases herr : (rollbackSession reg id).1.error with _ | e
    · rw [herr] at h
      unfold getSessionResult at h ⊢
      rcases hst : getSessionState (rollbackSession reg id).2 id with _ | st
      · rfl
      · rw [hst] at h
        simp at h
    · rfl
  · intro reg id level h
    unfold handleSetIsolation at h ⊢
    rcases hs0 : getSessionState reg id with _ | st0
    · rfl
    · rw [hs0] at h
      rcases herr : (setIsolationLevel reg id level).1.error with _ | e
      · rw [herr] at h
        unfold getSessionResult at h ⊢
        rcases hst : getSessionState (setIsolationLevel reg id level).2 id with _ | st
        · rfl
        · rw [hst] at h
          simp at h
      · rfl

/-- Counterexample to claim C6 as stated: `commit` on an idle session
returns an error response that carries no session descriptor, although
the session still exists and has a last-known descriptor. -/
theorem commit_error_drops_descriptor :
    (handleCommit regIdleW "s1").1 =
      { sessionId := "s1", state := none, error := some "No active transaction" }
    ∧ (getSessionState regIdleW "s1").isSome = true := ⟨rfl, rfl⟩

/-- The execute response for an unknown session id. -/
def notFoundEvW : QueryResultEvent :=
  { sessionId := "x", result := none
    error := some { message := "Session not found" }
    state := none, uncommitted := none }

/-- Instantiation of `error_response_descriptor_policy` on concrete
requests, discharging every hypothesis. -/
theorem error_response_descriptor_policy_witness :
    notFoundEvW.state = getSessionState ([] : Registry) "x"
    ∧ (handleCommit regIdleW "s1").1.state = none
    ∧ (handleRollback regIdleW "s1").1.state = none
    ∧ (handleSetIsolation regTxW "s1" IsolationLevel.serializable).1.state = none :=
  ⟨error_response_descriptor_policy.1 [] "x" "SELECT 1" notFoundEvW [] rfl,
   error_response_descriptor_policy.2.1 regIdleW "s1" rfl,
   error_response_descriptor_policy.2.2.1 regIdleW "s1" rfl,
   error_response_descriptor_policy.2.2.2 regTxW "s1" IsolationLevel.serializable rfl⟩
